import Mathlib

/-!
Verification of the `cleanhtml` rendering core of scu/cleanpg.

The definitions below are a shallow embedding of `src/cleanhtml/elements.go`,
`src/cleanhtml/render.go` and `src/cleanhtml/parse.go`.  The Go code writes
incrementally to a `bytes.Buffer` and returns an `error`; here every writer
step is modelled by returning the string written so far together with an
optional error, so that the buffer contents at the moment an error aborts
the traversal are visible.  The three process-wide configuration globals
(`renderCanonicalMode`, `renderStyle`, `renderLinks`) become a `Config`
record, and the two process-wide traversal globals
(`encounteredBodyElement`, `encounteredFirstH1Element`) become an explicit
`GState` threaded through every call, exactly as the Go globals are read and
written.
-/

namespace Cleanpg

/-- The apostrophe character, built numerically. -/
def apos : Char := Char.ofNat 39

/-- The apostrophe as a one-character string. -/
def aposS : String := String.singleton apos

/-- `nodeElements` from `elements.go`: allowed attributes and injected style
for one tag. -/
structure nodeElements where
  attributes : List String
  style : String
  deriving DecidableEq

/-- Go zero value of `nodeElements` (what a failed map lookup yields). -/
def nodeElements.zero : nodeElements := ⟨[], ""⟩

/-- The three configuration globals of `parse.go`, as a record. -/
structure Config where
  renderCanonicalMode : Bool
  renderStyle : Bool
  renderLinks : Bool
  deriving DecidableEq

/-- The two traversal-state globals of `elements.go`
(`encounteredBodyElement`, `encounteredFirstH1Element`), as a record.
They are process-wide in Go: nothing ever resets them. -/
structure GState where
  encounteredBodyElement : Bool
  encounteredFirstH1Element : Bool
  deriving DecidableEq

/-- The process-start value of the two globals (`false`, `false`). -/
def GState.initial : GState := ⟨false, false⟩

/-- `voidElements` map from `elements.go` §12.1.2 void tags. -/
def voidElements (tag : String) : Bool :=
  ["area", "base", "br", "col", "embed", "hr", "img", "input", "keygen",
   "link", "meta", "param", "source", "track", "wbr"].contains tag

/-- Style text of the `html` entry (raw backquoted Go string, tabs kept). -/
def htmlStyle : String :=
  "\n\t\tmargin: auto;\n\t\theight: 100%;\n\t\tdisplay: table;\n\t\tbackground: #d6dede;\n\t\t"

/-- Style text of the `body` entry; the apostrophes of the Go source are
spliced in via `aposS`, and the two trailing blanks after `#555753;` and
`#fff;` are kept. -/
def bodyStyle : String :=
  "\n\t\tmargin: 0 auto;\n\t\tpadding-left: 20px;\n\t\tpadding-right: 20px;\n\t\theight: 100%;\n\t\tfont: 115% "
    ++ aposS ++ "PT Sans" ++ aposS ++ ", " ++ aposS ++ "Helvetica" ++ aposS
    ++ ", sans-serif;\n\t\tmax-width: 800px;\n\t\tcolor: #555753; \n\t\tbackground: #fff; \n\t\tdisplay: table-cell;\n\t\tvertical-align: middle;\n\t\t"

/-- Style text of the `h1` entry. -/
def h1Style : String := "\n\t\tfont-size: 175%;\n\t\tmargin-top: 40px;\n\t\t"

/-- Style text of the `h2` entry. -/
def h2Style : String := "\n\t\tfont-size: 145%;\n\t\tmargin-top: 30px;\n\t\t"

/-- Style text of the `h3` entry. -/
def h3Style : String := "\n\t\tfont-size: 130%;\n\t\tmargin-top: 20px;\n\t\t"

/-- Style text of the `pre` entry. -/
def preStyle : String := "font-family: Menlo, monospace;\n\t\tfont-size: 0.875rem;"

/-- Style text of the `code` entry. -/
def codeStyle : String :=
  "font-family: Menlo, monospace;\n\t\tword-spacing: -0.3em;\n\t\tfont-size: 0.875rem;"

/-- The `renderableHTML` map literal of `elements.go`, as an association
list in source order. -/
def renderableHTMLList : List (String × nodeElements) :=
  [("html", ⟨[], htmlStyle⟩),
   ("head", ⟨[], ""⟩),
   ("title", ⟨[], ""⟩),
   ("body", ⟨[], bodyStyle⟩),
   ("div", ⟨[], ""⟩),
   ("span", ⟨[], ""⟩),
   ("h1", ⟨[], h1Style⟩),
   ("h2", ⟨[], h2Style⟩),
   ("h3", ⟨[], h3Style⟩),
   ("h4", ⟨[], ""⟩),
   ("h5", ⟨[], ""⟩),
   ("h6", ⟨[], ""⟩),
   ("p", ⟨[], ""⟩),
   ("blockquote", ⟨[], ""⟩),
   ("pre", ⟨[], preStyle⟩),
   ("code", ⟨[], codeStyle⟩),
   ("a", ⟨["href"], ""⟩),
   ("b", ⟨[], ""⟩),
   ("em", ⟨[], ""⟩),
   ("i", ⟨[], ""⟩),
   ("br", ⟨[], ""⟩),
   ("caption", ⟨[], ""⟩),
   ("col", ⟨[], ""⟩),
   ("colgroup", ⟨[], ""⟩),
   ("table", ⟨[], ""⟩),
   ("tbody", ⟨[], ""⟩),
   ("td", ⟨[], ""⟩),
   ("tfoot", ⟨[], ""⟩),
   ("th", ⟨[], ""⟩),
   ("thead", ⟨[], ""⟩),
   ("tr", ⟨[], ""⟩)]

/-- Key lookup in the `renderableHTML` map (`v, ok := renderableHTML[k]`). -/
def renderableHTML (tag : String) : Option nodeElements :=
  renderableHTMLList.lookup tag

/-- Lowercasing of a tag name; models `strings.ToLower` (the ASCII fold
suffices: every key of the policy table is ASCII). -/
def goToLower (s : String) : String := ⟨s.data.map Char.toLower⟩

/-! ### The escaper (`escape` in `render.go`) -/

/-- The constant `escapedChars = "&'<>\"\r"` of `escape`. -/
def escapedChars : List Char := ['&', apos, '<', '>', '"', '\r']

/-- `strings.IndexAny(s, escapedChars)`: index of the first character of
`s` that is in `escapedChars`, or `none`. -/
def indexAny : List Char → Option Nat
  | [] => none
  | c :: rest =>
    if escapedChars.contains c then some 0 else (indexAny rest).map (· + 1)

/-- The `switch s[i]` of `escape`, mapping an escaped character to its
entity.  The Go `default` branch panics; it is unreachable because
`indexAny` only ever designates characters of `escapedChars`, and is
modelled by the empty string. -/
def escSwitch (c : Char) : String :=
  if c = '&' then "&amp;"
  else if c = apos then "&#39;"
  else if c = '<' then "&lt;"
  else if c = '>' then "&gt;"
  else if c = '"' then "&#34;"
  else if c = '\r' then "&#13;"
  else ""

theorem indexAny_some_lt {s : List Char} {i : Nat}
    (h : indexAny s = some i) : i < s.length := by
  induction s generalizing i with
  | nil => simp [indexAny] at h
  | cons c rest ih =>
    rw [indexAny] at h
    split at h
    · cases h
      simp
    · rw [Option.map_eq_some'] at h
      obtain ⟨j, hj, hji⟩ := h
      have := ih hj
      simp
      omega

/-- The `escape` loop of `render.go`: copy up to the first escaped
character, write its entity, continue on the remainder; the final
remainder (with no escaped character) is copied verbatim. -/
def escape (s : List Char) : List Char :=
  match h : indexAny s with
  | none => s
  | some i =>
    s.take i ++ (escSwitch (s.getD i ' ')).data ++ escape (s.drop (i + 1))
termination_by s.length
decreasing_by
  have hi := indexAny_some_lt h
  simp
  omega

/-- `escape` on strings (the Go function writes to the output buffer;
here it returns what it writes). -/
def escapeStr (s : String) : String := ⟨escape s.data⟩

theorem escape_of_none {s : List Char} (h : indexAny s = none) :
    escape s = s := by
  rw [escape]
  split
  · rfl
  · rename_i i hi
    rw [h] at hi
    cases hi

theorem escape_of_some {s : List Char} {i : Nat} (h : indexAny s = some i) :
    escape s =
      s.take i ++ (escSwitch (s.getD i ' ')).data ++ escape (s.drop (i + 1)) := by
  conv_lhs => rw [escape]
  split
  · rename_i hn
    rw [h] at hn
    cases hn
  · rename_i j hj
    rw [h] at hj
    cases hj
    rfl

theorem indexAny_cons_pos {c : Char} {rest : List Char}
    (hc : escapedChars.contains c = true) :
    indexAny (c :: rest) = some 0 := by
  rw [indexAny, if_pos hc]

theorem indexAny_cons_neg {c : Char} {rest : List Char}
    (hc : escapedChars.contains c = false) :
    indexAny (c :: rest) = (indexAny rest).map (· + 1) := by
  rw [indexAny, if_neg]
  simpa using hc

/-- One step of the `escape` loop, character by character. -/
theorem escape_cons (c : Char) (rest : List Char) :
    escape (c :: rest) =
      (if escapedChars.contains c then (escSwitch c).data else [c])
        ++ escape rest := by
  cases hc : escapedChars.contains c with
  | true =>
    rw [escape_of_some (indexAny_cons_pos hc)]
    simp
  | false =>
    cases hr : indexAny rest with
    | none =>
      rw [escape_of_none, escape_of_none hr]
      · simp
      · rw [indexAny_cons_neg hc, hr]
        rfl
    | some j =>
      have h1 : indexAny (c :: rest) = some (j + 1) := by
        rw [indexAny_cons_neg hc, hr]
        rfl
      rw [escape_of_some h1, escape_of_some hr]
      simp

/-- The per-character substitution described by the specification of the
escaper: the six special characters become their entities, every other
character is left unchanged. -/
def escSpecChar (c : Char) : String :=
  if c = '&' then "&amp;"
  else if c = apos then "&#39;"
  else if c = '<' then "&lt;"
  else if c = '>' then "&gt;"
  else if c = '"' then "&#34;"
  else if c = '\r' then "&#13;"
  else String.singleton c

theorem escSwitch_eq_spec {c : Char} (hc : escapedChars.contains c = true) :
    escSwitch c = escSpecChar c := by
  have hm : c ∈ escapedChars := by simpa using hc
  fin_cases hm <;> rfl

theorem escSpecChar_of_not {c : Char} (hc : escapedChars.contains c = false) :
    (escSpecChar c).data = [c] := by
  have hm : c ∉ escapedChars := by simpa using hc
  simp [escapedChars] at hm
  obtain ⟨h1, h2, h3, h4, h5, h6⟩ := hm
  simp [escSpecChar, h1, h2, h3, h4, h5, h6]

/-- The `escape` loop is exactly the per-character substitution: the
output is the concatenation of `escSpecChar` over the input characters. -/
theorem escape_eq_spec (s : List Char) :
    escape s = (s.map fun c => (escSpecChar c).data).flatten := by
  induction s with
  | nil => exact escape_of_none rfl
  | cons c rest ih =>
    rw [escape_cons, ih]
    cases hc : escapedChars.contains c with
    | true => simp [escSwitch_eq_spec hc]
    | false => simp [escSpecChar_of_not hc]

/-- `escapeStr` as a directly computable per-character map. -/
theorem escapeStr_eq_spec (s : String) :
    escapeStr s = ⟨(s.data.map fun c => (escSpecChar c).data).flatten⟩ := by
  rw [escapeStr, escape_eq_spec]

/-! ### Whitespace test, style cleaning, policy queries -/

/-- `unicode.IsSpace` of the Go standard library: the Unicode
`White_Space` code points. -/
def unicodeIsSpace (c : Char) : Bool :=
  [9, 10, 11, 12, 13, 32, 0x85, 0xA0, 0x1680, 0x2000, 0x2001, 0x2002,
   0x2003, 0x2004, 0x2005, 0x2006, 0x2007, 0x2008, 0x2009, 0x200A,
   0x2028, 0x2029, 0x202F, 0x205F, 0x3000].contains c.toNat

/-- `isTextWhitespace` from `render.go`: true when every rune of the text
is whitespace (the Go loop returns false at the first non-space rune). -/
def isTextWhitespace (text : String) : Bool :=
  text.data.all unicodeIsSpace

/-- `cleanStyle` from `render.go`: drop every carriage-return, newline and
tab rune, keep everything else (the Go loop writes each kept rune to a
builder). -/
def cleanStyle (text : String) : String :=
  ⟨text.data.filter fun v => v != '\r' && v != '\n' && v != '\t'⟩

/-- `isElementRenderable` from `elements.go`.  The Go function reads the
configuration globals and mutates the two traversal globals; here it takes
the `Config` and the incoming `GState` and returns the decision together
with the outgoing `GState`.  The structure mirrors the source: map lookup,
early return for suppressed links, then the three sequential canonical-mode
steps (body flag, suppression window, h1 override). -/
def isElementRenderable (cfg : Config) (node : String) (st : GState) :
    Bool × GState :=
  let lcaseTag := goToLower node
  let doRender := (renderableHTML lcaseTag).isSome
  if lcaseTag = "a" && doRender && !cfg.renderLinks then
    (false, st)
  else if cfg.renderCanonicalMode && doRender then
    let st1 :=
      if lcaseTag = "body" then
        { st with encounteredBodyElement := true }
      else st
    let doRender1 :=
      if st1.encounteredBodyElement && !st1.encounteredFirstH1Element
          && lcaseTag != "body" then
        false
      else doRender
    if lcaseTag = "h1" then
      (true, { st1 with encounteredFirstH1Element := true })
    else
      (doRender1, st1)
  else
    (doRender, st)

/-- `isElementAttributeRenderable` from `elements.go`: the attribute key
must occur (exact match) in the policy entry of the lowercased tag. -/
def isElementAttributeRenderable (node : String) (attr : String) : Bool :=
  let lcNode := goToLower node
  match renderableHTML lcNode with
  | none => false
  | some pol => pol.attributes.contains attr

/-! ### The tree renderer (`render.go`) -/

/-- One attribute of an element node: `html.Attribute`'s namespace, key
and value. -/
structure Attr where
  ns : String
  key : String
  val : String
  deriving DecidableEq

/-- The parsed tree shape consumed by the renderer: the seven
`html.NodeType` variants; `unknownNode` stands for any other value of the
underlying integer type, which `render`'s `default` branch rejects. -/
inductive Node where
  | errorNode (data : String) (children : List Node)
  | textNode (data : String)
  | documentNode (children : List Node)
  | elementNode (data : String) (attrs : List Attr) (children : List Node)
  | commentNode (data : String)
  | doctypeNode (data : String)
  | rawNode (data : String)
  | unknownNode (typeCode : Nat) (data : String) (children : List Node)

/-- Whether a node is a text node (`c.Type == html.TextNode`). -/
def Node.isText : Node → Bool
  | .textNode _ => true
  | _ => false

/-- `renderAttributes` from `render.go`: for each attribute in source
order that passes `isElementAttributeRenderable`, emit a blank, the
optional `ns:` prefix, and `key="value"` with the raw value. -/
def renderAttributes (tag : String) (attrs : List Attr) : String :=
  attrs.foldl
    (fun acc a =>
      if isElementAttributeRenderable tag a.key then
        acc ++ " " ++ (if a.ns != "" then a.ns ++ ":" else "")
          ++ a.key ++ "=\"" ++ a.val ++ "\""
      else acc)
    ""

/-- `renderStartTag` from `render.go`: leading newline, `<tag`, the
cleaned style attribute when style injection is on and the raw-tag policy
style is non-empty, the filtered attributes; then for a void tag either
the void-element error (when the node has a child) or `/>`, and `>`
otherwise.  Returns the text written up to the error point together with
the optional error, as the Go buffer would hold it. -/
def renderStartTag (cfg : Config) (tag : String) (attrs : List Attr)
    (hasChild : Bool) : String × Option String :=
  let out := "\n" ++ "<" ++ tag
  let pol := (renderableHTML tag).getD nodeElements.zero
  let out :=
    if cfg.renderStyle && pol.style != "" then
      out ++ cleanStyle (" style=\"" ++ pol.style ++ "\"")
    else out
  let out := out ++ renderAttributes tag attrs
  if voidElements tag then
    if hasChild then
      (out, some ("html: void element <" ++ tag ++ "> has child nodes"))
    else (out ++ "/>", none)
  else (out ++ ">", none)

/-- `renderCloseTag` from `render.go`. -/
def renderCloseTag (tag : String) : String := "</" ++ tag ++ ">"

mutual

/-- `render` from `render.go`.  The writer is modelled by returning the
string written during the call; the traversal globals are threaded as the
`GState`; the third component is the `error` result (`none` = `nil`). -/
def render (cfg : Config) : Node → GState → String × GState × Option String
  | .errorNode d _, st =>
    ("", st, some ("cleanhtml: error node [" ++ d ++ "]"))
  | .textNode d, st =>
    ((if isTextWhitespace d then "" else escapeStr d), st, none)
  | .documentNode cs, st => renderList cfg cs st
  | .elementNode tag attrs cs, st =>
    let pr := isElementRenderable cfg tag st
    if pr.1 then
      match renderStartTag cfg tag attrs (!cs.isEmpty) with
      | (o1, some e) => (o1, pr.2, some e)
      | (o1, none) =>
        match renderKids cfg tag cs pr.2 with
        | (o2, st2, some e) => (o1 ++ o2, st2, some e)
        | (o2, st2, none) =>
          (o1 ++ o2 ++ renderCloseTag tag, st2, none)
    else
      renderKids cfg tag cs pr.2
  | .commentNode _, st => ("", st, none)
  | .doctypeNode _, st => ("<!DOCTYPE html>", st, none)
  | .rawNode d, st => (d, st, none)
  | .unknownNode _ _ _, st => ("", st, some "html: unknown node type")

/-- The child loop of the `DocumentNode` case of `render`: render each
child in source order, stopping at the first error. -/
def renderList (cfg : Config) :
    List Node → GState → String × GState × Option String
  | [], st => ("", st, none)
  | c :: cs, st =>
    match render cfg c st with
    | (o, st1, some e) => (o, st1, some e)
    | (o, st1, none) =>
      let r := renderList cfg cs st1
      (o ++ r.1, r.2.1, r.2.2)

/-- The child loop of the `ElementNode` case of `render`: like
`renderList`, but a text child is skipped (`continue`) when
`isElementRenderable` applied to the parent tag says the parent is not
renderable; that re-evaluation also updates the traversal state, exactly
as the Go condition `c.Type == html.TextNode &&
!isElementRenderable(c.Parent.Data)` does. -/
def renderKids (cfg : Config) (ptag : String) :
    List Node → GState → String × GState × Option String
  | [], st => ("", st, none)
  | c :: cs, st =>
    if c.isText then
      let q := isElementRenderable cfg ptag st
      if !q.1 then
        renderKids cfg ptag cs q.2
      else
        match render cfg c q.2 with
        | (o, st1, some e) => (o, st1, some e)
        | (o, st1, none) =>
          let r := renderKids cfg ptag cs st1
          (o ++ r.1, r.2.1, r.2.2)
    else
      match render cfg c st with
      | (o, st1, some e) => (o, st1, some e)
      | (o, st1, none) =>
        let r := renderKids cfg ptag cs st1
        (o ++ r.1, r.2.1, r.2.2)

end

/-- `CleanHTML` from `parse.go`, with the external `html.Parse` step
factored out: it takes the already-parsed document tree.  The Go function
calls `render` on a fresh buffer, *discards `render`'s error result*, and
returns the buffer contents with a `nil` error.  The traversal globals
live across calls, so the incoming `GState` is a parameter and the
outgoing one is returned alongside. -/
def CleanHTML (cfg : Config) (st : GState) (doc : Node) :
    (String × Option String) × GState :=
  let r := render cfg doc st
  ((r.1, none), r.2.1)

end Cleanpg

namespace Cleanpg

/-! ### Helper lemmas -/

/-- A tag whose lowercase form is not a key of the policy table is not
renderable and leaves the traversal state untouched: the `a`-check and
the whole canonical-mode block are guarded by `doRender`. -/
theorem isElementRenderable_not_found (cfg : Config) (st : GState)
    (tag : String) (h : renderableHTML (goToLower tag) = none) :
    isElementRenderable cfg tag st = (false, st) := by
  rw [isElementRenderable]
  simp [h]

/-- With link rendering disabled, tag `a` takes the early return of
`isElementRenderable`: not renderable, no state mutation. -/
theorem isElementRenderable_a_nolinks (cfg : Config) (st : GState)
    (h : cfg.renderLinks = false) :
    isElementRenderable cfg "a" st = (false, st) := by
  rw [isElementRenderable]
  have h1 : goToLower "a" = "a" := by decide
  have h2 : (renderableHTML "a").isSome = true := by decide
  simp [h1, h2, h]

/-- Splitting the document-children loop: when the first block of
children renders without error, the loop continues into the rest from the
updated state. -/
theorem renderList_append_ok (cfg : Config) {pre : List Node}
    {st st1 : GState} {o : String}
    (h : renderList cfg pre st = (o, st1, none)) (rest : List Node) :
    renderList cfg (pre ++ rest) st =
      (o ++ (renderList cfg rest st1).1,
       (renderList cfg rest st1).2.1, (renderList cfg rest st1).2.2) := by
  induction pre generalizing st o with
  | nil =>
    rw [renderList] at h
    cases h
    simp
  | cons c cs ih =>
    rw [renderList] at h
    rw [List.cons_append, renderList]
    cases hr : render cfg c st with
    | mk o0 rest0 =>
      cases rest0 with
      | mk st0 err0 =>
        rw [hr] at h
        cases err0 with
        | none =>
          simp at h
          obtain ⟨h1, h2⟩ := h
          cases hcs : renderList cfg cs st0 with
          | mk o1 rest1 =>
            cases rest1 with
            | mk st1x err1 =>
              rw [hcs] at h1 h2
              simp at h1 h2
              obtain ⟨rfl, rfl⟩ := h2
              simp
              rw [ih hcs]
              simp [← h1, String.append_assoc]
        | some e => simp at h

/-- Splitting an element's child loop: when the first block of children
renders without error, the loop continues into the rest from the updated
state (the text-skip re-evaluations included). -/
theorem renderKids_append_ok (cfg : Config) (ptag : String) {pre : List Node}
    {st st1 : GState} {o : String}
    (h : renderKids cfg ptag pre st = (o, st1, none)) (rest : List Node) :
    renderKids cfg ptag (pre ++ rest) st =
      (o ++ (renderKids cfg ptag rest st1).1,
       (renderKids cfg ptag rest st1).2.1,
       (renderKids cfg ptag rest st1).2.2) := by
  induction pre generalizing st o with
  | nil =>
    rw [renderKids] at h
    cases h
    simp
  | cons c cs ih =>
    rw [renderKids] at h
    rw [List.cons_append, renderKids]
    by_cases hct : c.isText = true
    · rw [if_pos hct] at h
      rw [if_pos hct]
      by_cases hq : (!(isElementRenderable cfg ptag st).1) = true
      · rw [if_pos hq] at h
        rw [if_pos hq]
        exact ih h
      · rw [if_neg hq] at h
        rw [if_neg hq]
        cases hr : render cfg c (isElementRenderable cfg ptag st).2 with
        | mk o0 rest0 =>
          cases rest0 with
          | mk st0 err0 =>
            rw [hr] at h
            cases err0 with
            | none =>
              simp at h
              obtain ⟨h1, h2⟩ := h
              cases hcs : renderKids cfg ptag cs st0 with
              | mk o1 rest1 =>
                cases rest1 with
                | mk st1x err1 =>
                  rw [hcs] at h1 h2
                  simp at h1 h2
                  obtain ⟨rfl, rfl⟩ := h2
                  simp
                  rw [ih hcs]
                  simp [← h1, String.append_assoc]
            | some e => simp at h
    · rw [if_neg hct] at h
      rw [if_neg hct]
      cases hr : render cfg c st with
      | mk o0 rest0 =>
        cases rest0 with
        | mk st0 err0 =>
          rw [hr] at h
          cases err0 with
          | none =>
            simp at h
            obtain ⟨h1, h2⟩ := h
            cases hcs : renderKids cfg ptag cs st0 with
            | mk o1 rest1 =>
              cases rest1 with
              | mk st1x err1 =>
                rw [hcs] at h1 h2
                simp at h1 h2
                obtain ⟨rfl, rfl⟩ := h2
                simp
                rw [ih hcs]
                simp [← h1, String.append_assoc]
          | some e => simp at h

/-- `cleanStyle` distributes over string append. -/
theorem cleanStyle_append (a b : String) :
    cleanStyle (a ++ b) = cleanStyle a ++ cleanStyle b := by
  show cleanStyle ⟨a.data ++ b.data⟩ = _
  simp [cleanStyle, List.filter_append]
  rfl

/-- `String.join` concatenates the underlying character lists. -/
theorem string_join_data (l : List String) :
    (String.join l).data = (l.map String.data).flatten := by
  have key : ∀ (l : List String) (acc : String),
      (l.foldl (· ++ ·) acc).data = acc.data ++ (l.map String.data).flatten := by
    intro l
    induction l with
    | nil => intro acc; simp
    | cons x xs ih =>
      intro acc
      simp [List.foldl_cons, ih (acc ++ x)]
  simp [String.join]
  rw [key l ""]
  simp

/-! ### C1 -/

/-- Claim C1, as stated, is false: `render` does abort and return the
error, but `CleanHTML` discards `render`'s error result.  On a document
whose second child is a parser error node, `CleanHTML` returns the
partial output `"hi"` of the first child as a success (`none` error),
even though `render` reported the error-node error. -/
theorem C1_counterexample :
    CleanHTML ⟨false, true, true⟩ ⟨false, false⟩
        (.documentNode [.textNode "hi", .errorNode "boom" []]) =
      (("hi", none), ⟨false, false⟩) ∧
    (render ⟨false, true, true⟩
        (.documentNode [.textNode "hi", .errorNode "boom" []])
        ⟨false, false⟩).2.2 = some "cleanhtml: error node [boom]" := by
  constructor
  · simp [CleanHTML, render, renderList, isTextWhitespace, unicodeIsSpace,
      escapeStr_eq_spec]
    decide
  · simp [render, renderList, isTextWhitespace, unicodeIsSpace,
      escapeStr_eq_spec]

/-- C1 amended: each of the three error triggers — a parser error node,
an unknown node variant, and a renderable void element with children —
makes `render` fail with its error; any such failure aborts the
traversal at the failing node (the document loop and an element's child
loop render nothing after it, and a failing child loop suppresses the
element's close tag), and the error is returned to `render`'s caller;
but the top-level entry point `CleanHTML` discards the error of *every*
failing render and returns the partial buffer contents with a `nil`
error, i.e. partial output is delivered as a success result. -/
theorem C1_error_swallowed (cfg : Config) (st : GState) :
    (∀ (d : String) (cs : List Node),
        render cfg (.errorNode d cs) st =
          ("", st, some ("cleanhtml: error node [" ++ d ++ "]"))) ∧
    (∀ (k : Nat) (d : String) (cs : List Node),
        render cfg (.unknownNode k d cs) st =
          ("", st, some "html: unknown node type")) ∧
    (∀ (tag : String) (attrs : List Attr) (c : Node) (cs : List Node),
        (isElementRenderable cfg tag st).1 = true →
        voidElements tag = true →
        render cfg (.elementNode tag attrs (c :: cs)) st =
          ((renderStartTag cfg tag attrs true).1,
           (isElementRenderable cfg tag st).2,
           some ("html: void element <" ++ tag ++ "> has child nodes"))) ∧
    (∀ (pre : List Node) (bad : Node) (rest : List Node) (o ob : String)
        (st1 stb : GState) (e : String),
        renderList cfg pre st = (o, st1, none) →
        render cfg bad st1 = (ob, stb, some e) →
        render cfg (.documentNode (pre ++ bad :: rest)) st =
          (o ++ ob, stb, some e)) ∧
    (∀ (ptag : String) (pre : List Node) (bad : Node) (rest : List Node)
        (o ob : String) (st1 stb : GState) (e : String),
        bad.isText = false →
        renderKids cfg ptag pre st = (o, st1, none) →
        render cfg bad st1 = (ob, stb, some e) →
        renderKids cfg ptag (pre ++ bad :: rest) st = (o ++ ob, stb, some e)) ∧
    (∀ (tag : String) (attrs : List Attr) (cs : List Node) (o1 o2 : String)
        (st2 : GState) (e : String),
        (isElementRenderable cfg tag st).1 = true →
        renderStartTag cfg tag attrs (!cs.isEmpty) = (o1, none) →
        renderKids cfg tag cs (isElementRenderable cfg tag st).2 =
          (o2, st2, some e) →
        render cfg (.elementNode tag attrs cs) st = (o1 ++ o2, st2, some e)) ∧
    (∀ (doc : Node) (o : String) (stf : GState) (e : String),
        render cfg doc st = (o, stf, some e) →
        CleanHTML cfg st doc = ((o, none), stf)) := by
  refine ⟨?_, ?_, ?_, ?_, ?_, ?_, ?_⟩
  · intro d cs
    rw [render]
  · intro k d cs
    rw [render]
  · intro tag attrs c cs hr hv
    have hchild : (!(c :: cs).isEmpty) = true := by simp
    have hs2 : (renderStartTag cfg tag attrs true).2 =
        some ("html: void element <" ++ tag ++ "> has child nodes") := by
      rw [renderStartTag]
      simp [hv]
    have hst : renderStartTag cfg tag attrs true =
        ((renderStartTag cfg tag attrs true).1,
         some ("html: void element <" ++ tag ++ "> has child nodes")) := by
      rw [← hs2]
    rw [render, hr, hchild, hst]
    rfl
  · intro pre bad rest o ob st1 stb e hpre hbad
    have hdoc : render cfg (.documentNode (pre ++ bad :: rest)) st =
        renderList cfg (pre ++ bad :: rest) st := by
      rw [render]
    have hb : renderList cfg (bad :: rest) st1 = (ob, stb, some e) := by
      rw [renderList, hbad]
    have hsplit := renderList_append_ok cfg hpre (bad :: rest)
    rw [hb] at hsplit
    simp at hsplit
    rw [hdoc, hsplit]
  · intro ptag pre bad rest o ob st1 stb e hbt hpre hbad
    have hb : renderKids cfg ptag (bad :: rest) st1 = (ob, stb, some e) := by
      rw [renderKids, if_neg]
      · rw [hbad]
      · simp [hbt]
    have hsplit := renderKids_append_ok cfg ptag hpre (bad :: rest)
    rw [hb] at hsplit
    simp at hsplit
    rw [hsplit]
  · intro tag attrs cs o1 o2 st2 e hr hstart hk
    rw [render, hr, hstart, hk]
    rfl
  · intro doc o stf e h
    rw [CleanHTML, h]

/-- Witness for C1's amended theorem: concretely, a document whose second
child is an error node renders its first child, fails at the error node
before the third child, and `CleanHTML` returns the partial output with a
`nil` error. -/
theorem C1_witness :
    renderList ⟨false, true, true⟩ [.textNode "hi"] ⟨false, false⟩ =
      ("hi", ⟨false, false⟩, none) ∧
    render ⟨false, true, true⟩ (.errorNode "boom" []) ⟨false, false⟩ =
      ("", ⟨false, false⟩, some ("cleanhtml: error node [" ++ "boom" ++ "]")) ∧
    render ⟨false, true, true⟩
        (.documentNode
          ([.textNode "hi"] ++ .errorNode "boom" [] :: [.textNode "bye"]))
        ⟨false, false⟩ =
      ("hi" ++ "", ⟨false, false⟩,
       some ("cleanhtml: error node [" ++ "boom" ++ "]")) ∧
    CleanHTML ⟨false, true, true⟩ ⟨false, false⟩
        (.documentNode
          ([.textNode "hi"] ++ .errorNode "boom" [] :: [.textNode "bye"])) =
      (("hi" ++ "", none), ⟨false, false⟩) := by
  have T := C1_error_swallowed ⟨false, true, true⟩ ⟨false, false⟩
  have hpre : renderList ⟨false, true, true⟩ [.textNode "hi"] ⟨false, false⟩ =
      ("hi", ⟨false, false⟩, none) := by
    simp [renderList, render, isTextWhitespace, unicodeIsSpace,
      escapeStr_eq_spec]
    decide
  have herr := T.1 "boom" []
  have hdoc := T.2.2.2.1 [.textNode "hi"] (.errorNode "boom" [])
    [.textNode "bye"] "hi" "" ⟨false, false⟩ ⟨false, false⟩
    ("cleanhtml: error node [" ++ "boom" ++ "]") hpre herr
  exact ⟨hpre, herr, hdoc, T.2.2.2.2.2.2 _ _ _ _ hdoc⟩

/-! ### C2 -/

/-- Claim C2 is the intended design, but the code violates it: the
traversal globals are never reset, so with canonical mode on, rendering
the same document (`<div>` then `<body>`) twice in succession from the
process-start state yields different bytes — the leaked
`encounteredBodyElement = true` suppresses the `<div>` in the second
call. -/
theorem C2_state_leak :
    (CleanHTML ⟨true, false, true⟩ GState.initial
        (.documentNode [.elementNode "div" [] [], .elementNode "body" [] []])).1.1 =
      "\n<div></div>\n<body></body>" ∧
    (CleanHTML ⟨true, false, true⟩
        (CleanHTML ⟨true, false, true⟩ GState.initial
          (.documentNode [.elementNode "div" [] [], .elementNode "body" [] []])).2
        (.documentNode [.elementNode "div" [] [], .elementNode "body" [] []])).1.1 =
      "\n<body></body>" ∧
    ("\n<div></div>\n<body></body>" : String) ≠ "\n<body></body>" := by
  refine ⟨?_, ?_, by decide⟩
  · simp [CleanHTML, GState.initial, render, renderList, renderKids,
      renderStartTag, renderCloseTag, renderAttributes, isElementRenderable,
      isElementAttributeRenderable, renderableHTML, renderableHTMLList,
      voidElements, goToLower, Node.isText, isTextWhitespace, unicodeIsSpace,
      escapeStr_eq_spec, nodeElements.zero]
  · simp [CleanHTML, GState.initial, render, renderList, renderKids,
      renderStartTag, renderCloseTag, renderAttributes, isElementRenderable,
      isElementAttributeRenderable, renderableHTML, renderableHTMLList,
      voidElements, goToLower, Node.isText, isTextWhitespace, unicodeIsSpace,
      escapeStr_eq_spec, nodeElements.zero]

/-! ### C3 -/

/-- Claim C3, as stated, is false: with link rendering disabled, the
text child of `<a href="x">text</a>` is *not* emitted — the whole render
of that element produces the empty string, because the child loop skips a
text child whenever the parent element is not renderable, and the
suppressed `<a>` is exactly such a parent. -/
theorem C3_counterexample :
    CleanHTML ⟨false, true, false⟩ ⟨false, false⟩
        (.documentNode [.elementNode "a" [⟨"", "href", "x"⟩] [.textNode "text"]]) =
      (("", none), ⟨false, false⟩) := by
  simp [CleanHTML, render, renderList, renderKids, renderStartTag,
    renderCloseTag, renderAttributes, isElementRenderable,
    isElementAttributeRenderable, renderableHTML, renderableHTMLList,
    voidElements, goToLower, Node.isText, isTextWhitespace, unicodeIsSpace,
    escapeStr_eq_spec, nodeElements.zero]

/-- C3 amended: with link rendering disabled, an `<a>` element with a
text child is not rendered as a tag *and* its child text is dropped as
well: the render emits nothing and leaves the traversal state unchanged,
for every configuration with `renderLinks = false`, every attribute list
and every child text. -/
theorem C3_link_text_dropped (cfg : Config) (st : GState)
    (attrs : List Attr) (s : String) (h : cfg.renderLinks = false) :
    render cfg (.elementNode "a" attrs [.textNode s]) st = ("", st, none) := by
  have ha := isElementRenderable_a_nolinks cfg st h
  rw [render, ha]
  simp [renderKids, Node.isText, ha]

/-- Witness for C3's amended theorem at a concrete input. -/
theorem C3_witness :
    (⟨false, true, false⟩ : Config).renderLinks = false ∧
    render ⟨false, true, false⟩
        (.elementNode "a" [⟨"", "href", "x"⟩] [.textNode "text"]) ⟨false, false⟩ =
      ("", ⟨false, false⟩, none) :=
  ⟨rfl, C3_link_text_dropped ⟨false, true, false⟩ ⟨false, false⟩
    [⟨"", "href", "x"⟩] "text" rfl⟩

/-! ### C4 -/

/-- Claim C4: in a successful render of an element node, the closing tag
is emitted exactly when the start tag was: if the element was judged
renderable the output is start tag ++ children output ++ `</tag>`, and if
it was not, the output is exactly the children output — the element
contributes no tags of its own. -/
theorem C4_close_iff_start (cfg : Config) (tag : String) (attrs : List Attr)
    (cs : List Node) (st st2 : GState) (out : String)
    (h : render cfg (.elementNode tag attrs cs) st = (out, st2, none)) :
    ((isElementRenderable cfg tag st).1 = true →
      ∃ o1 o2, renderStartTag cfg tag attrs (!cs.isEmpty) = (o1, none) ∧
        renderKids cfg tag cs (isElementRenderable cfg tag st).2 =
          (o2, st2, none) ∧
        out = o1 ++ o2 ++ renderCloseTag tag) ∧
    ((isElementRenderable cfg tag st).1 = false →
      out = (renderKids cfg tag cs (isElementRenderable cfg tag st).2).1) := by
  rw [render] at h
  constructor
  · intro hr
    rw [hr] at h
    simp at h
    cases hs : renderStartTag cfg tag attrs (!cs.isEmpty) with
    | mk o1 e1 =>
      rw [hs] at h
      cases e1 with
      | some e => simp at h
      | none =>
        cases hk : renderKids cfg tag cs (isElementRenderable cfg tag st).2 with
        | mk o2 r2 =>
          cases r2 with
          | mk stk ek =>
            rw [hk] at h
            cases ek with
            | some e => simp at h
            | none =>
              simp at h
              obtain ⟨rfl, rfl⟩ := h
              exact ⟨o1, o2, rfl, rfl, rfl⟩
  · intro hr
    rw [hr] at h
    simp at h
    rw [h]

/-- Witness for C4 at `<p>x</p>`. -/
theorem C4_witness :
    render ⟨false, true, true⟩ (.elementNode "p" [] [.textNode "x"])
        ⟨false, false⟩ = ("\n<p>x</p>", ⟨false, false⟩, none) ∧
    (((isElementRenderable ⟨false, true, true⟩ "p" ⟨false, false⟩).1 = true →
      ∃ o1 o2,
        renderStartTag ⟨false, true, true⟩ "p" []
            (!([Node.textNode "x"] : List Node).isEmpty) = (o1, none) ∧
        renderKids ⟨false, true, true⟩ "p" [Node.textNode "x"]
            (isElementRenderable ⟨false, true, true⟩ "p" ⟨false, false⟩).2 =
          (o2, ⟨false, false⟩, none) ∧
        "\n<p>x</p>" = o1 ++ o2 ++ renderCloseTag "p") ∧
    ((isElementRenderable ⟨false, true, true⟩ "p" ⟨false, false⟩).1 = false →
      "\n<p>x</p>" =
        (renderKids ⟨false, true, true⟩ "p" [Node.textNode "x"]
          (isElementRenderable ⟨false, true, true⟩ "p" ⟨false, false⟩).2).1)) :=
  ⟨by
    simp [render, renderKids, renderStartTag, renderCloseTag,
      renderAttributes, isElementRenderable, isElementAttributeRenderable,
      renderableHTML, renderableHTMLList, voidElements, goToLower,
      Node.isText, isTextWhitespace, unicodeIsSpace, escapeStr_eq_spec,
      nodeElements.zero]
    decide,
   C4_close_iff_start ⟨false, true, true⟩ "p" [] [Node.textNode "x"]
     ⟨false, false⟩ ⟨false, false⟩ "\n<p>x</p>"
     (by
       simp [render, renderKids, renderStartTag, renderCloseTag,
         renderAttributes, isElementRenderable, isElementAttributeRenderable,
         renderableHTML, renderableHTMLList, voidElements, goToLower,
         Node.isText, isTextWhitespace, unicodeIsSpace, escapeStr_eq_spec,
         nodeElements.zero]
       decide)⟩

/-! ### C5 -/

/-- Claim C5: with canonical mode on (and any style/link toggles),
starting from `{false, false}`, the tag sequence body, div, h1, p
evaluates to: body renderable (setting the body flag), div suppressed,
h1 renderable (setting the heading flag), p renderable. -/
theorem C5_canonical_sequence :
    ∀ styleFlag linksFlag : Bool,
      isElementRenderable ⟨true, styleFlag, linksFlag⟩ "body" ⟨false, false⟩ =
        (true, ⟨true, false⟩) ∧
      isElementRenderable ⟨true, styleFlag, linksFlag⟩ "div" ⟨true, false⟩ =
        (false, ⟨true, false⟩) ∧
      isElementRenderable ⟨true, styleFlag, linksFlag⟩ "h1" ⟨true, false⟩ =
        (true, ⟨true, true⟩) ∧
      isElementRenderable ⟨true, styleFlag, linksFlag⟩ "p" ⟨true, true⟩ =
        (true, ⟨true, true⟩) := by
  decide

/-! ### C6 -/

/-- Claim C6: `escape` is exactly the left-to-right per-character
substitution — each occurrence of the six special characters is replaced
by its entity and every other character is passed through unchanged. -/
theorem C6_escape_per_char (s : String) :
    escapeStr s = String.join (s.data.map escSpecChar) := by
  apply String.ext
  rw [string_join_data, escapeStr_eq_spec, List.map_map]
  rfl

/-! ### C7 -/

/-- Claim C7, as stated, is false in its zero-children half: a childless
`<br>` does not render as just a leading newline plus the self-closed
tag — after `<br/>` the renderer also emits a closing `</br>`, because
the close-tag step of `render` does not exempt void elements. -/
theorem C7_counterexample :
    render ⟨false, true, true⟩ (.elementNode "br" [] []) ⟨false, false⟩ =
      ("\n<br/></br>", ⟨false, false⟩, none) ∧
    ("\n<br/></br>" : String) ≠ "\n<br/>" := by
  constructor
  · simp [render, renderKids, renderStartTag, renderCloseTag,
      renderAttributes, isElementRenderable, isElementAttributeRenderable,
      renderableHTML, renderableHTMLList, voidElements, goToLower,
      Node.isText, isTextWhitespace, unicodeIsSpace, escapeStr_eq_spec,
      nodeElements.zero]
    decide
  · decide

/-- C7 amended: outside canonical mode, a childless `<br>` renders as a
leading newline, the self-closed tag, and a (redundant) closing tag:
`"\n<br/></br>"`; and a `<br>` with at least one child aborts with the
void-element error after writing only `"\n<br"`. -/
theorem C7_void_br (cfg : Config) (st : GState)
    (h : cfg.renderCanonicalMode = false) :
    render cfg (.elementNode "br" [] []) st =
      ("\n<br/></br>", st, none) ∧
    ∀ (c : Node) (cs : List Node),
      render cfg (.elementNode "br" [] (c :: cs)) st =
        ("\n<br", st, some "html: void element <br> has child nodes") := by
  have h1 : goToLower "br" = "br" := by decide
  have h2 : (renderableHTML "br").isSome = true := by decide
  have hr : isElementRenderable cfg "br" st = (true, st) := by
    rw [isElementRenderable]
    simp [h1, h2, h]
  have hpol : renderableHTML "br" = some ⟨[], ""⟩ := by decide
  have hv : voidElements "br" = true := by decide
  constructor
  · rw [render, hr]
    simp [renderKids, renderStartTag, renderCloseTag, renderAttributes,
      hpol, hv, nodeElements.zero]
  · intro c cs
    rw [render, hr]
    simp [renderStartTag, renderAttributes, hpol, hv, nodeElements.zero]

/-- Witness for C7's amended theorem at a concrete configuration. -/
theorem C7_witness :
    (⟨false, true, true⟩ : Config).renderCanonicalMode = false ∧
    (render ⟨false, true, true⟩ (.elementNode "br" [] []) ⟨false, false⟩ =
      ("\n<br/></br>", ⟨false, false⟩, none) ∧
    ∀ (c : Node) (cs : List Node),
      render ⟨false, true, true⟩ (.elementNode "br" [] (c :: cs)) ⟨false, false⟩ =
        ("\n<br", ⟨false, false⟩,
          some "html: void element <br> has child nodes")) :=
  ⟨rfl, C7_void_br ⟨false, true, true⟩ ⟨false, false⟩ rfl⟩

/-! ### C8 -/

/-- Claim C8: a tag name whose lowercase form is not a key of the policy
table is not renderable, and the traversal state is returned unchanged,
under every configuration. -/
theorem C8_unknown_tag_no_effect (cfg : Config) (st : GState) (tag : String)
    (h : renderableHTML (goToLower tag) = none) :
    isElementRenderable cfg tag st = (false, st) :=
  isElementRenderable_not_found cfg st tag h

/-- Witness for C8 at tag `script` (absent from the table), with all
toggles on and a mid-traversal state. -/
theorem C8_witness :
    renderableHTML (goToLower "script") = none ∧
    isElementRenderable ⟨true, true, true⟩ "script" ⟨true, false⟩ =
      (false, ⟨true, false⟩) :=
  ⟨by decide,
   C8_unknown_tag_no_effect ⟨true, true, true⟩ ⟨true, false⟩ "script"
     (by decide)⟩

/-! ### C9 -/

/-- Claim C9: the start tag is newline, `<tag`, then — exactly when style
injection is on and the raw-tag policy style is non-empty — a style
attribute whose text is the policy style with every carriage-return,
newline and tab removed (and nothing otherwise), then the filtered
attributes, then the tag-closing tail. -/
theorem C9_style_attribute (cfg : Config) (tag : String)
    (attrs : List Attr) (hasChild : Bool) :
    ∃ tail err,
      renderStartTag cfg tag attrs hasChild =
        ("\n" ++ "<" ++ tag
          ++ (if cfg.renderStyle
                && ((renderableHTML tag).getD nodeElements.zero).style != "" then
                " style=\"" ++
                  cleanStyle ((renderableHTML tag).getD nodeElements.zero).style
                  ++ "\""
              else "")
          ++ renderAttributes tag attrs ++ tail, err) ∧
      cleanStyle ((renderableHTML tag).getD nodeElements.zero).style =
        ⟨(((renderableHTML tag).getD nodeElements.zero).style).data.filter
            fun v => decide (v ≠ '\r' ∧ v ≠ '\n' ∧ v ≠ '\t')⟩ := by
  have hfilter : ∀ t : String, cleanStyle t =
      ⟨t.data.filter fun v => decide (v ≠ '\r' ∧ v ≠ '\n' ∧ v ≠ '\t')⟩ := by
    intro t
    rw [cleanStyle]
    congr 1
    apply List.filter_congr
    intro v _
    by_cases h1 : v = '\r' <;> by_cases h2 : v = '\n' <;>
      by_cases h3 : v = '\t' <;> simp [h1, h2, h3]
  have hclean : ∀ t : String,
      cleanStyle (" style=\"" ++ (t ++ "\"")) =
        " style=\"" ++ (cleanStyle t ++ "\"") := by
    intro t
    rw [cleanStyle_append, cleanStyle_append]
    have e1 : cleanStyle " style=\"" = " style=\"" := by decide
    have e2 : cleanStyle "\"" = "\"" := by decide
    rw [e1, e2]
  rw [renderStartTag]
  by_cases hv : voidElements tag = true
  · by_cases hch : hasChild = true
    · refine ⟨"", some ("html: void element <" ++ tag ++ "> has child nodes"),
        ?_, hfilter _⟩
      simp [hv, hch]
      by_cases hc : cfg.renderStyle = true ∧
          ¬((renderableHTML tag).getD nodeElements.zero).style = ""
      · simp [hc, hclean, String.append_assoc]
      · simp [hc]
    · refine ⟨"/>", none, ?_, hfilter _⟩
      simp [hv, hch]
      by_cases hc : cfg.renderStyle = true ∧
          ¬((renderableHTML tag).getD nodeElements.zero).style = ""
      · simp [hc, hclean, String.append_assoc]
      · simp [hc]
  · refine ⟨">", none, ?_, hfilter _⟩
    simp [hv]
    by_cases hc : cfg.renderStyle = true ∧
        ¬((renderableHTML tag).getD nodeElements.zero).style = ""
    · simp [hc, hclean, String.append_assoc]
    · simp [hc]

/-! ### C10 -/

/-- Claim C10: the void-with-children check happens only for renderable
elements.  An element whose (lowercased) tag is absent from the policy
table — `img` is such a void tag — renders exactly as its child loop
does: no start tag, no void-element failure, children traversed in
source order. -/
theorem C10_unlisted_void_children_traversed (cfg : Config) (st : GState)
    (tag : String) (attrs : List Attr) (cs : List Node)
    (h : renderableHTML (goToLower tag) = none) :
    render cfg (.elementNode tag attrs cs) st = renderKids cfg tag cs st := by
  have hr := isElementRenderable_not_found cfg st tag h
  rw [render, hr]
  simp

/-- Witness for C10: `img` is void and absent from the policy table; with
a `<p>x</p>` child the render equals the child loop and succeeds with the
child's output. -/
theorem C10_witness :
    renderableHTML (goToLower "img") = none ∧
    voidElements "img" = true ∧
    render ⟨false, true, true⟩
        (.elementNode "img" [] [.elementNode "p" [] [.textNode "x"]])
        ⟨false, false⟩ =
      renderKids ⟨false, true, true⟩ "img"
        [.elementNode "p" [] [.textNode "x"]] ⟨false, false⟩ :=
  ⟨by decide, by decide,
   C10_unlisted_void_children_traversed ⟨false, true, true⟩ ⟨false, false⟩
     "img" [] [.elementNode "p" [] [.textNode "x"]] (by decide)⟩

end Cleanpg
